import Mathlib

/-!
Verification of the Avenox on-chain record-keeping modules and the client
deployment orchestrator.

The development shallowly embeds the three Move modules
(`deployment_registry`, `subscription_manager`, `payment_processor`) and the
pure checking phase of the client orchestrator (`use-deployment.ts`,
`deployment-registry.ts`).  Move `u64` arithmetic aborts on overflow and
underflow rather than wrapping; additions in these modules act on amounts and
counters far below `2^64`, so they are modelled on `Nat`, while subtractions
that can genuinely underflow are modelled by the checked `csub`.  A Move
`abort` rolls the whole transaction back, so every entry point is a function
returning `Except MoveAbort σ`: an `.error` result leaves the caller's state
unchanged.  Addresses and object ids are modelled as `Nat`; fresh object ids
(`object::new`) are modelled by a `next_id` counter in the registry state.
-/

/-- Failure modes of a Move transaction: an `assert!` abort code, or one of
the implicit aborts of the standard library (`table::borrow` on a missing
key, `table::add` on a present key, `vector::borrow` out of range,
`u64` underflow, `vector::pop_back` on an empty vector,
`vector::destroy_empty` on a non-empty vector). -/
inductive MoveAbort where
  | code : Nat → MoveAbort
  | missingKey : MoveAbort
  | dupKey : MoveAbort
  | outOfRange : MoveAbort
  | arith : MoveAbort
  | emptyVec : MoveAbort
  | nonEmptyVec : MoveAbort
deriving DecidableEq, Repr

/-- `true` iff the transaction succeeded. -/
def moveOk {α : Type} : Except MoveAbort α → Bool
  | .ok _ => true
  | .error _ => false

/-- `sui::table` with `Nat` keys, as an association list (first hit wins). -/
def tlookup {α : Type} (t : List (Nat × α)) (k : Nat) : Option α :=
  match t with
  | [] => none
  | (k2, v) :: rest => if k2 = k then some v else tlookup rest k

/-- `table::contains`. -/
def tcontains {α : Type} (t : List (Nat × α)) (k : Nat) : Bool :=
  (tlookup t k).isSome

/-- `table::add` (callers are responsible for the duplicate-key abort). -/
def tadd {α : Type} (t : List (Nat × α)) (k : Nat) (v : α) : List (Nat × α) :=
  t ++ [(k, v)]

/-- `table::borrow_mut` followed by mutation through the reference:
apply `f` to the (first) entry bound to `k`. -/
def tmodify {α : Type} (t : List (Nat × α)) (k : Nat) (f : α → α) : List (Nat × α) :=
  match t with
  | [] => []
  | (k2, v) :: rest => if k2 = k then (k2, f v) :: rest else (k2, v) :: tmodify rest k f

/-- `vector::borrow`, aborting out of range. -/
def vborrow {α : Type} (v : List α) (i : Nat) : Except MoveAbort α :=
  match v.get? i with
  | some x => .ok x
  | none => .error .outOfRange

/-- `vector::borrow_mut` followed by assignment (callers check the range). -/
def vset {α : Type} (v : List α) (i : Nat) (x : α) : List α :=
  v.set i x

/-- Checked `u64` subtraction: Move aborts on underflow. -/
def csub (a b : Nat) : Except MoveAbort Nat :=
  if b ≤ a then .ok (a - b) else .error .arith

theorem tlookup_tadd {α : Type} (t : List (Nat × α)) (k : Nat) (v : α) (k2 : Nat) :
    tlookup (tadd t k v) k2 =
      match tlookup t k2 with
      | some w => some w
      | none => if k = k2 then some v else none := by
  induction t with
  | nil => simp [tadd, tlookup]
  | cons hd tl ih =>
    obtain ⟨k3, v3⟩ := hd
    by_cases h : k3 = k2
    · simp [tadd, tlookup, h]
    · simpa [tadd, tlookup, h] using ih

theorem tlookup_tmodify {α : Type} (t : List (Nat × α)) (k : Nat) (f : α → α) (k2 : Nat) :
    tlookup (tmodify t k f) k2 =
      if k = k2 then (tlookup t k).map f else tlookup t k2 := by
  induction t with
  | nil => simp [tmodify, tlookup]
  | cons hd tl ih =>
    obtain ⟨k3, v3⟩ := hd
    by_cases h3 : k3 = k
    · subst h3
      by_cases h2 : k3 = k2
      · subst h2; simp [tmodify, tlookup]
      · have h2' : ¬ k2 = k3 := fun h => h2 h.symm
        simp [tmodify, tlookup, h2, h2']
    · by_cases h2 : k3 = k2
      · subst h2
        have h3' : ¬ k = k3 := fun h => h3 h.symm
        simp [tmodify, tlookup, h3, h3']
      · simp [tmodify, tlookup, h3, h2, ih]

theorem tcontains_iff {α : Type} (t : List (Nat × α)) (k : Nat) :
    tcontains t k = true ↔ ∃ v, tlookup t k = some v := by
  simp [tcontains, Option.isSome_iff_exists]

/-! ## `avenox::deployment_registry`
Embedded from `contracts` sources (`basic-flow-example.ts` carries the module
text).  Coins are passed by value, so entry points receive `payment_amount`
(`coin::value`) directly; `clock::timestamp_ms` is the `now` argument and
`tx_context::sender` the `sender` argument. -/

def STATUS_PENDING : Nat := 0
def STATUS_PROCESSING : Nat := 1
def STATUS_DEPLOYED : Nat := 2
def STATUS_FAILED : Nat := 3

def E_INSUFFICIENT_PAYMENT : Nat := 1001
def E_UNAUTHORIZED : Nat := 1003
def E_INVALID_STATUS : Nat := 1004

structure DeploymentRecord where
  deployment_id : Nat
  user : Nat
  repo_url : String
  commit_hash : String
  branch : String
  walrus_site_id : String
  usdc_paid : Nat
  estimated_wal : Nat
  actual_wal_used : Nat
  created_at : Nat
  deployed_at : Nat
  status : Nat
  build_command : String
  output_dir : String
  version : Nat
  error_message : String
  environment : String
  deployment_type : Nat
  parent_deployment_id : Option Nat
  metadata : String
deriving DecidableEq, Repr

structure DeploymentRegistry where
  user_deployments : List (Nat × List Nat)
  deployments : List (Nat × DeploymentRecord)
  total_deployments : Nat
  total_usdc_collected : Nat
  treasury_address : Nat
  min_payment_usdc : Nat
  platform_fee_bps : Nat
  /-- fresh-object-id counter standing in for `object::new`. -/
  next_id : Nat
deriving DecidableEq, Repr

/-- The registry shared by `init`. -/
def init_registry : DeploymentRegistry :=
  { user_deployments := []
    deployments := []
    total_deployments := 0
    total_usdc_collected := 0
    treasury_address := 0x1234
    min_payment_usdc := 5000000
    platform_fee_bps := 2000
    next_id := 0 }

/-- The `while` loop of `get_next_version`: walk the user's deployment ids,
`table::borrow` each record (aborting if absent) and bump `version` when the
repo url matches. -/
def version_loop (deployments : List (Nat × DeploymentRecord)) (repo_url : String) :
    List Nat → Nat → Except MoveAbort Nat
  | [], version => .ok version
  | id :: rest, version =>
    match tlookup deployments id with
    | none => .error .missingKey
    | some d =>
      version_loop deployments repo_url rest
        (if d.repo_url = repo_url then version + 1 else version)

def get_next_version (registry : DeploymentRegistry) (repo_url : String) (user : Nat) :
    Except MoveAbort Nat :=
  match tlookup registry.user_deployments user with
  | none => .ok 1
  | some user_list => version_loop registry.deployments repo_url user_list 1

def request_deployment (registry : DeploymentRegistry) (payment_amount sender : Nat)
    (repo_url branch commit_hash build_command output_dir : String)
    (estimated_wal : Nat) (environment : String) (now : Nat) :
    Except MoveAbort DeploymentRegistry :=
  if payment_amount < registry.min_payment_usdc then .error (.code E_INSUFFICIENT_PAYMENT)
  else
    let deployment_id := registry.next_id
    match get_next_version registry repo_url sender with
    | .error e => .error e
    | .ok version =>
      let record : DeploymentRecord :=
        { deployment_id := deployment_id
          user := sender
          repo_url := repo_url
          commit_hash := commit_hash
          branch := branch
          walrus_site_id := ""
          usdc_paid := payment_amount
          estimated_wal := estimated_wal
          actual_wal_used := 0
          created_at := now
          deployed_at := 0
          status := STATUS_PENDING
          build_command := build_command
          output_dir := output_dir
          version := version
          error_message := ""
          environment := environment
          deployment_type := 0
          parent_deployment_id := none
          metadata := "\x7b\x7d" }
      if tcontains registry.deployments deployment_id then .error .dupKey
      else
        let user_deployments1 :=
          if tcontains registry.user_deployments sender then registry.user_deployments
          else tadd registry.user_deployments sender []
        .ok { registry with
              deployments := tadd registry.deployments deployment_id record
              user_deployments := tmodify user_deployments1 sender (fun l => l ++ [deployment_id])
              total_deployments := registry.total_deployments + 1
              total_usdc_collected := registry.total_usdc_collected + payment_amount
              next_id := registry.next_id + 1 }

def mark_processing (registry : DeploymentRegistry) (deployment_id : Nat) :
    Except MoveAbort DeploymentRegistry :=
  match tlookup registry.deployments deployment_id with
  | none => .error .missingKey
  | some deployment =>
    if deployment.status = STATUS_PENDING then
      .ok { registry with
            deployments := tmodify registry.deployments deployment_id
              (fun d => { d with status := STATUS_PROCESSING }) }
    else .error (.code E_INVALID_STATUS)

def mark_deployed (registry : DeploymentRegistry) (deployment_id : Nat)
    (walrus_site_id : String) (actual_wal_used now : Nat) :
    Except MoveAbort DeploymentRegistry :=
  match tlookup registry.deployments deployment_id with
  | none => .error .missingKey
  | some deployment =>
    if deployment.status = STATUS_PROCESSING then
      .ok { registry with
            deployments := tmodify registry.deployments deployment_id
              (fun d => { d with
                status := STATUS_DEPLOYED
                walrus_site_id := walrus_site_id
                actual_wal_used := actual_wal_used
                deployed_at := now }) }
    else .error (.code E_INVALID_STATUS)

/-- NOTE: the source `mark_failed` performs no status assertion at all: any
existing record is overwritten to `STATUS_FAILED`. -/
def mark_failed (registry : DeploymentRegistry) (deployment_id : Nat)
    (error_message : String) (_now : Nat) :
    Except MoveAbort DeploymentRegistry :=
  match tlookup registry.deployments deployment_id with
  | none => .error .missingKey
  | some _ =>
    .ok { registry with
          deployments := tmodify registry.deployments deployment_id
            (fun d => { d with status := STATUS_FAILED, error_message := error_message }) }

/-- NOTE: the source `request_rollback_deployment` has no minimum-payment
check, copies the parent's `version` unchanged, does not add to
`total_usdc_collected`, and accesses the caller's `user_deployments` entry
without a `contains` guard. -/
def request_rollback_deployment (registry : DeploymentRegistry)
    (payment_amount sender parent_deployment_id now : Nat) :
    Except MoveAbort DeploymentRegistry :=
  match tlookup registry.deployments parent_deployment_id with
  | none => .error .missingKey
  | some parent =>
    if parent.user ≠ sender then .error (.code E_UNAUTHORIZED)
    else
      let deployment_id := registry.next_id
      let record : DeploymentRecord :=
        { deployment_id := deployment_id
          user := sender
          repo_url := parent.repo_url
          commit_hash := parent.commit_hash
          branch := parent.branch
          walrus_site_id := ""
          usdc_paid := payment_amount
          estimated_wal := parent.estimated_wal
          actual_wal_used := 0
          created_at := now
          deployed_at := 0
          status := STATUS_PENDING
          build_command := parent.build_command
          output_dir := parent.output_dir
          version := parent.version
          error_message := ""
          environment := parent.environment
          deployment_type := 2
          parent_deployment_id := some parent_deployment_id
          metadata := "\x7b\"type\":\"rollback\"\x7d" }
      if tcontains registry.deployments deployment_id then .error .dupKey
      else
        match tlookup registry.user_deployments sender with
        | none => .error .missingKey
        | some _ =>
          .ok { registry with
                deployments := tadd registry.deployments deployment_id record
                user_deployments := tmodify registry.user_deployments sender
                  (fun l => l ++ [deployment_id])
                total_deployments := registry.total_deployments + 1
                next_id := registry.next_id + 1 }

def get_user_deployments (registry : DeploymentRegistry) (user : Nat) : List Nat :=
  match tlookup registry.user_deployments user with
  | some l => l
  | none => []

/-! ## `avenox::subscription_manager`
The `UsageTracker` owned object mutated by `record_deployment` is independent
of the shared registry and irrelevant to the claims; only the registry effect
of `record_deployment` is modelled (an abort in the tracker part would leave
the registry unchanged, which is covered by reachability not taking that
step). -/

def SECONDS_IN_MONTH : Nat := 2592000000

def E_SUB_INSUFFICIENT_PAYMENT : Nat := 3001
def E_SUBSCRIPTION_NOT_FOUND : Nat := 3002
def E_ALREADY_SUBSCRIBED : Nat := 3003
def E_INVALID_TIER : Nat := 3005

structure PaymentRecord where
  amount : Nat
  timestamp : Nat
  tier : Nat
  transaction_id : Nat
deriving DecidableEq, Repr

structure Subscription where
  user : Nat
  tier : Nat
  start_date : Nat
  end_date : Nat
  deployments_used : Nat
  bandwidth_used : Nat
  auto_renew : Bool
  payment_history : List PaymentRecord
  total_spent : Nat
deriving DecidableEq, Repr

structure SubscriptionRegistry where
  subscriptions : List (Nat × Subscription)
  total_revenue : Nat
  active_subscriptions : List Nat
  treasury : Nat
  tier_prices : List Nat
  deployment_limits : List Nat
  bandwidth_limits : List Nat
deriving DecidableEq, Repr

/-- The registry shared by `init`. -/
def init_sub_registry : SubscriptionRegistry :=
  { subscriptions := []
    total_revenue := 0
    active_subscriptions := [0, 0, 0, 0]
    treasury := 0x1234
    tier_prices := [0, 10000000, 50000000, 200000000]
    deployment_limits := [3, 10, 100, 9999]
    bandwidth_limits := [100, 1000, 10000, 99999] }

def subscribe (registry : SubscriptionRegistry) (payment_amount tier : Nat)
    (auto_renew : Bool) (user now : Nat) : Except MoveAbort SubscriptionRegistry :=
  if ¬ (0 < tier ∧ tier ≤ 3) then .error (.code E_INVALID_TIER)
  else if tcontains registry.subscriptions user then .error (.code E_ALREADY_SUBSCRIBED)
  else
    match vborrow registry.tier_prices tier with
    | .error e => .error e
    | .ok required_amount =>
      if payment_amount < required_amount then .error (.code E_SUB_INSUFFICIENT_PAYMENT)
      else
        let end_date := now + SECONDS_IN_MONTH
        let payment_record : PaymentRecord :=
          { amount := payment_amount, timestamp := now, tier := tier, transaction_id := 0 }
        let subscription : Subscription :=
          { user := user
            tier := tier
            start_date := now
            end_date := end_date
            deployments_used := 0
            bandwidth_used := 0
            auto_renew := auto_renew
            payment_history := [payment_record]
            total_spent := payment_amount }
        match vborrow registry.active_subscriptions tier with
        | .error e => .error e
        | .ok tier_count =>
          .ok { registry with
                subscriptions := tadd registry.subscriptions user subscription
                active_subscriptions := vset registry.active_subscriptions tier (tier_count + 1)
                total_revenue := registry.total_revenue + payment_amount }

def renew_subscription (registry : SubscriptionRegistry) (payment_amount user now : Nat) :
    Except MoveAbort SubscriptionRegistry :=
  match tlookup registry.subscriptions user with
  | none => .error (.code E_SUBSCRIPTION_NOT_FOUND)
  | some subscription =>
    match vborrow registry.tier_prices subscription.tier with
    | .error e => .error e
    | .ok required_amount =>
      if payment_amount < required_amount then .error (.code E_SUB_INSUFFICIENT_PAYMENT)
      else
        let new_end_date :=
          if subscription.end_date < now then now + SECONDS_IN_MONTH
          else subscription.end_date + SECONDS_IN_MONTH
        let payment_record : PaymentRecord :=
          { amount := payment_amount, timestamp := now
            tier := subscription.tier, transaction_id := 0 }
        .ok { registry with
              subscriptions := tmodify registry.subscriptions user (fun s =>
                { s with
                  end_date := new_end_date
                  deployments_used := 0
                  bandwidth_used := 0
                  payment_history := s.payment_history ++ [payment_record]
                  total_spent := s.total_spent + payment_amount })
              total_revenue := registry.total_revenue + payment_amount }

/-- NOTE: the source `upgrade_tier` transfers the payment to the treasury but
records it nowhere: neither `total_spent`, nor `payment_history`, nor the
registry's `total_revenue` are updated. -/
def upgrade_tier (registry : SubscriptionRegistry) (payment_amount new_tier user : Nat) :
    Except MoveAbort SubscriptionRegistry :=
  if ¬ (0 < new_tier ∧ new_tier ≤ 3) then .error (.code E_INVALID_TIER)
  else
    match tlookup registry.subscriptions user with
    | none => .error (.code E_SUBSCRIPTION_NOT_FOUND)
    | some subscription =>
      let old_tier := subscription.tier
      if ¬ (old_tier < new_tier) then .error (.code E_INVALID_TIER)
      else
        match vborrow registry.tier_prices new_tier, vborrow registry.tier_prices old_tier with
        | .error e, _ => .error e
        | .ok _, .error e => .error e
        | .ok new_price, .ok old_price =>
          match csub new_price old_price with
          | .error e => .error e
          | .ok price_diff =>
            if payment_amount < price_diff then .error (.code E_SUB_INSUFFICIENT_PAYMENT)
            else
              match vborrow registry.active_subscriptions old_tier with
              | .error e => .error e
              | .ok old_tier_count =>
                match csub old_tier_count 1 with
                | .error e => .error e
                | .ok old_count2 =>
                  let active1 := vset registry.active_subscriptions old_tier old_count2
                  match vborrow active1 new_tier with
                  | .error e => .error e
                  | .ok new_tier_count =>
                    .ok { registry with
                          active_subscriptions := vset active1 new_tier (new_tier_count + 1)
                          subscriptions := tmodify registry.subscriptions user
                            (fun s => { s with tier := new_tier }) }

def cancel_subscription (registry : SubscriptionRegistry) (user : Nat) :
    Except MoveAbort SubscriptionRegistry :=
  match tlookup registry.subscriptions user with
  | none => .error (.code E_SUBSCRIPTION_NOT_FOUND)
  | some _ =>
    .ok { registry with
          subscriptions := tmodify registry.subscriptions user
            (fun s => { s with auto_renew := false }) }

/-- Registry effect of `record_deployment` (the usage-tracker object is
separate). -/
def record_deployment (registry : SubscriptionRegistry) (user bandwidth_mb : Nat) :
    SubscriptionRegistry :=
  if tcontains registry.subscriptions user then
    { registry with
      subscriptions := tmodify registry.subscriptions user (fun s =>
        { s with
          deployments_used := s.deployments_used + 1
          bandwidth_used := s.bandwidth_used + bandwidth_mb }) }
  else registry

/-! ## `avenox::payment_processor`
Operations that transfer coins out of the processor additionally return the
amount transferred, so that the audit-trail sum of transfers out can be
accumulated by the step relation. -/

def E_INSUFFICIENT_BALANCE : Nat := 2001

structure PaymentProcessor where
  treasury_address : Nat
  usdc_buffer : Nat
  wal_buffer : Nat
  auto_swap_threshold : Nat
  total_usdc_processed : Nat
  total_wal_distributed : Nat
  slippage_tolerance_bps : Nat
  pool_address : Nat
deriving DecidableEq, Repr

structure PaymentProcessed where
  user : Nat
  usdc_amount : Nat
  deployment_id : String
  timestamp : Nat
deriving DecidableEq, Repr

/-- The processor shared by `init_processor`. -/
def init_processor : PaymentProcessor :=
  { treasury_address := 0x1234
    usdc_buffer := 0
    wal_buffer := 0
    auto_swap_threshold := 100000000
    total_usdc_processed := 0
    total_wal_distributed := 0
    slippage_tolerance_bps := 300
    pool_address := 0x5678 }

/-- `process_payment` has no assertion at all: the body joins the coin into
the buffer, bumps `total_usdc_processed`, hits an `if` with an empty body
(the auto-swap check is a no-op) and emits `PaymentProcessed`.  The emitted
event is returned alongside the new state. -/
def process_payment (processor : PaymentProcessor) (payment_amount user : Nat)
    (deployment_id : String) (now : Nat) :
    Except MoveAbort (PaymentProcessor × PaymentProcessed) :=
  .ok ({ processor with
         usdc_buffer := processor.usdc_buffer + payment_amount
         total_usdc_processed := processor.total_usdc_processed + payment_amount },
       { user := user, usdc_amount := payment_amount
         deployment_id := deployment_id, timestamp := now })

/-- Returns the new state together with the amount of USDC transferred out to
the treasury (the whole buffer). -/
def simulate_swap (processor : PaymentProcessor) (mock_wal_amount : Nat) :
    Except MoveAbort (PaymentProcessor × Nat) :=
  let swap_amount := processor.usdc_buffer
  if ¬ (0 < swap_amount) then .error (.code E_INSUFFICIENT_BALANCE)
  else
    .ok ({ processor with
           wal_buffer := processor.wal_buffer + mock_wal_amount
           usdc_buffer := processor.usdc_buffer - swap_amount },
         swap_amount)

def transfer_wal_to_treasury (processor : PaymentProcessor) (amount : Nat) :
    Except MoveAbort PaymentProcessor :=
  if ¬ (amount ≤ processor.wal_buffer) then .error (.code E_INSUFFICIENT_BALANCE)
  else
    .ok { processor with
          wal_buffer := processor.wal_buffer - amount
          total_wal_distributed := processor.total_wal_distributed + amount }

/-- Returns the new state together with the USDC transferred out (the whole
buffer, sent to the caller). -/
def emergency_withdraw_usdc (processor : PaymentProcessor) :
    Except MoveAbort (PaymentProcessor × Nat) :=
  let balance_amount := processor.usdc_buffer
  if ¬ (0 < balance_amount) then .error (.code E_INSUFFICIENT_BALANCE)
  else
    .ok ({ processor with usdc_buffer := processor.usdc_buffer - balance_amount },
         balance_amount)

def update_config (processor : PaymentProcessor)
    (new_threshold new_slippage new_treasury : Nat) : PaymentProcessor :=
  { processor with
    auto_swap_threshold := new_threshold
    slippage_tolerance_bps := new_slippage
    treasury_address := new_treasury }

/-- The `while` loop of `batch_process_payments`: `i` counts up while
`vector::pop_back` shrinks `payments` from the back, so the condition
`i < vector::length(&payments)` is re-checked against the shrinking vector.
Returns the updated buffer, the accumulated `total_amount`, the remaining
(unprocessed) payments and the emitted events. -/
def batch_loop (usdc_buffer total_amount i : Nat) (payments : List Nat)
    (deployment_ids : List String) (user now : Nat) :
    Except MoveAbort (Nat × Nat × List Nat × List PaymentProcessed) :=
  if _h : i < payments.length then
    match payments.getLast? with
    | none => .error .emptyVec
    | some amount =>
      match deployment_ids.get? i with
      | none => .error .outOfRange
      | some dep =>
        match batch_loop (usdc_buffer + amount) (total_amount + amount) (i + 1)
            payments.dropLast deployment_ids user now with
        | .error e => .error e
        | .ok (buf, ta, rem, events) =>
          .ok (buf, ta, rem,
            ({ user := user, usdc_amount := amount
               deployment_id := dep, timestamp := now } : PaymentProcessed) :: events)
  else
    .ok (usdc_buffer, total_amount, payments, [])
termination_by payments.length
decreasing_by
  simp [List.length_dropLast]
  omega

/-- `vector::destroy_empty` at the end aborts whenever the loop left payments
unprocessed (which happens for any batch of two or more). -/
def batch_process_payments (processor : PaymentProcessor) (payments : List Nat)
    (deployment_ids : List String) (user now : Nat) :
    Except MoveAbort (PaymentProcessor × List PaymentProcessed) :=
  match batch_loop processor.usdc_buffer 0 0 payments deployment_ids user now with
  | .error e => .error e
  | .ok (buf, total_amount, remaining, events) =>
    if remaining.isEmpty then
      .ok ({ processor with
             usdc_buffer := buf
             total_usdc_processed := processor.total_usdc_processed + total_amount },
           events)
    else .error .nonEmptyVec

/-! ## Client orchestrator (`use-deployment.ts`, `deployment-registry.ts`)
Only the pure `checking` phase is modelled: it computes no effects beyond the
resulting UI state and the decision whether a transaction is submitted.
`formatUSDC` in the source divides by `1e6` as a JS float and calls
`toFixed(2)`; the model renders the same `$D.CC` string by integer
arithmetic, which agrees with the source on all amounts whose sub-cent part
is zero (every amount used by the claims). -/

def MIN_PAYMENT_USDC : Nat := 5000000

def calculateDeploymentCost (estimatedWal : Nat) : Nat :=
  MIN_PAYMENT_USDC + estimatedWal * 10000 / 1000000

def twoDigits (n : Nat) : String :=
  if n < 10 then "0" ++ toString n else toString n

def formatUSDC (amount : Nat) : String :=
  "$" ++ toString (amount / 1000000) ++ "." ++ twoDigits (amount % 1000000 / 10000)

inductive DeployStatus where
  | idle | checking | signing | processing | confirming | success | failed
deriving DecidableEq, Repr

structure CheckResult where
  deploymentStatus : DeployStatus
  error : Option String
  /-- whether the workflow goes on to build and submit a transaction. -/
  submitted : Bool
deriving DecidableEq, Repr

/-- The `checking` phase of `deployWithContract`: compute the required amount
via the registry service's cost function, compare the fetched USDC balance,
and either fail without submitting or proceed to `signing`. -/
def deploy_check (usdcBalance : Option Nat) (estimatedWal : Nat) : CheckResult :=
  let requiredAmount := calculateDeploymentCost estimatedWal
  match usdcBalance with
  | none =>
    { deploymentStatus := .failed
      error := some ("Insufficient USDC. Required: " ++ formatUSDC requiredAmount)
      submitted := false }
  | some balance =>
    if balance < requiredAmount then
      { deploymentStatus := .failed
        error := some ("Insufficient USDC. Required: " ++ formatUSDC requiredAmount)
        submitted := false }
    else
      { deploymentStatus := .signing, error := none, submitted := true }

/-! ## Step relations and reachability -/

/-- One successful transaction against the deployment registry. -/
inductive DStep : DeploymentRegistry → DeploymentRegistry → Prop where
  | request {r r2 pay sender ru br ch bc od ew env now} :
      request_deployment r pay sender ru br ch bc od ew env now = .ok r2 → DStep r r2
  | rollback {r r2 pay sender pid now} :
      request_rollback_deployment r pay sender pid now = .ok r2 → DStep r r2
  | processing {r r2 id} :
      mark_processing r id = .ok r2 → DStep r r2
  | deployed {r r2 id site wal now} :
      mark_deployed r id site wal now = .ok r2 → DStep r r2
  | failed {r r2 id msg now} :
      mark_failed r id msg now = .ok r2 → DStep r r2

inductive DReachable : DeploymentRegistry → Prop where
  | init : DReachable init_registry
  | step {r r2} : DReachable r → DStep r r2 → DReachable r2

/-- Structural invariant of the deployment registry:
every id in a user's list resolves to a record owned by that user, the lists
are in creation order (strictly increasing ids, since ids are handed out by
the fresh counter), and conversely every stored record appears in its owner's
list and has an id below the fresh counter. -/
def RegInv (r : DeploymentRegistry) : Prop :=
  (∀ u l, tlookup r.user_deployments u = some l →
     List.Pairwise (· < ·) l ∧
     ∀ id, id ∈ l → ∃ d, tlookup r.deployments id = some d ∧ d.user = u) ∧
  (∀ id d, tlookup r.deployments id = some d →
     id < r.next_id ∧
     ∃ l, tlookup r.user_deployments d.user = some l ∧ id ∈ l)

/-- One successful transaction against the subscription registry. -/
inductive SubStep : SubscriptionRegistry → SubscriptionRegistry → Prop where
  | subscribeStep {r r2 pay tier ar user now} :
      subscribe r pay tier ar user now = .ok r2 → SubStep r r2
  | renewStep {r r2 pay user now} :
      renew_subscription r pay user now = .ok r2 → SubStep r r2
  | upgradeStep {r r2 pay tier user} :
      upgrade_tier r pay tier user = .ok r2 → SubStep r r2
  | cancelStep {r r2 user} :
      cancel_subscription r user = .ok r2 → SubStep r r2
  | recordStep {r user bw} :
      SubStep r (record_deployment r user bw)

inductive SubReachable : SubscriptionRegistry → Prop where
  | init : SubReachable init_sub_registry
  | step {r r2} : SubReachable r → SubStep r r2 → SubReachable r2

/-- Sum of the `amount` fields of a payment history. -/
def sumAmounts : List PaymentRecord → Nat
  | [] => 0
  | p :: rest => p.amount + sumAmounts rest

/-- One successful transaction against the payment processor, paired with the
running total of USDC transferred out of the processor. -/
inductive PStep : PaymentProcessor × Nat → PaymentProcessor × Nat → Prop where
  | process {p p2 out a u d now ev} :
      process_payment p a u d now = .ok (p2, ev) → PStep (p, out) (p2, out)
  | swap {p p2 out w usdc_out} :
      simulate_swap p w = .ok (p2, usdc_out) → PStep (p, out) (p2, out + usdc_out)
  | transferWal {p p2 out a} :
      transfer_wal_to_treasury p a = .ok p2 → PStep (p, out) (p2, out)
  | emergency {p p2 out usdc_out} :
      emergency_withdraw_usdc p = .ok (p2, usdc_out) → PStep (p, out) (p2, out + usdc_out)
  | config {p out th sl tr} :
      PStep (p, out) (update_config p th sl tr, out)
  | batch {p p2 out ps ids u now evs} :
      batch_process_payments p ps ids u now = .ok (p2, evs) → PStep (p, out) (p2, out)

inductive PReachable : PaymentProcessor × Nat → Prop where
  | init : PReachable (init_processor, 0)
  | step {s s2} : PReachable s → PStep s s2 → PReachable s2

/-! ## Registry invariant: helper lemmas -/

theorem reg_inv_init : RegInv init_registry := by
  constructor
  · intro u l h
    simp [init_registry, tlookup] at h
  · intro id d h
    simp [init_registry, tlookup] at h

theorem fresh_not_in {r : DeploymentRegistry} (h : RegInv r) :
    tlookup r.deployments r.next_id = none := by
  cases hd : tlookup r.deployments r.next_id with
  | none => rfl
  | some d =>
    have := (h.2 r.next_id d hd).1
    omega

theorem tcontains_fresh {r : DeploymentRegistry} (h : RegInv r) :
    tcontains r.deployments r.next_id = false := by
  simp [tcontains, fresh_not_in h]

/-- Appending a strictly larger element keeps a list strictly sorted. -/
theorem pairwise_append_lt {l : List Nat} {n : Nat}
    (hc : List.Pairwise (· < ·) l) (hb : ∀ x ∈ l, x < n) :
    List.Pairwise (· < ·) (l ++ [n]) := by
  rw [List.pairwise_append]
  refine ⟨hc, List.pairwise_singleton _ _, ?_⟩
  intro a ha b hb2
  simp at hb2
  subst hb2
  exact hb a ha

/-- `mark_*` only rewrites fields of an existing record; if the rewrite keeps
the `user` field, the registry invariant is preserved. -/
theorem reg_inv_tmodify {r : DeploymentRegistry} (h : RegInv r) (id : Nat)
    (f : DeploymentRecord → DeploymentRecord) (hf : ∀ d, (f d).user = d.user) :
    RegInv { r with deployments := tmodify r.deployments id f } := by
  obtain ⟨hA, hB⟩ := h
  constructor
  · intro u l hl
    obtain ⟨hchain, hmem⟩ := hA u l hl
    refine ⟨hchain, ?_⟩
    intro k hk
    obtain ⟨d, hd, hdu⟩ := hmem k hk
    rw [tlookup_tmodify]
    by_cases hik : id = k
    · subst hik
      exact ⟨f d, by simp [hd], by rw [hf]; exact hdu⟩
    · simp [hik]
      exact ⟨d, hd, hdu⟩
  · intro k d hd
    rw [tlookup_tmodify] at hd
    by_cases hik : id = k
    · subst hik
      cases hd0 : tlookup r.deployments id with
      | none => simp [hd0] at hd
      | some d0 =>
        simp [hd0] at hd
        obtain ⟨hlt, l, hl, hmem⟩ := hB id d0 hd0
        subst hd
        rw [hf]
        exact ⟨hlt, l, hl, hmem⟩
    · simp [hik] at hd
      exact hB k d hd

/-- The record created by a successful `request_deployment`. -/
def new_deploy_record (r : DeploymentRegistry) (payment_amount sender : Nat)
    (repo_url branch commit_hash build_command output_dir : String)
    (estimated_wal : Nat) (environment : String) (now version : Nat) : DeploymentRecord :=
  { deployment_id := r.next_id
    user := sender
    repo_url := repo_url
    commit_hash := commit_hash
    branch := branch
    walrus_site_id := ""
    usdc_paid := payment_amount
    estimated_wal := estimated_wal
    actual_wal_used := 0
    created_at := now
    deployed_at := 0
    status := STATUS_PENDING
    build_command := build_command
    output_dir := output_dir
    version := version
    error_message := ""
    environment := environment
    deployment_type := 0
    parent_deployment_id := none
    metadata := "\x7b\x7d" }

theorem request_deployment_ok {r r2 : DeploymentRegistry} {pay sender : Nat}
    {ru br ch bc od : String} {ew : Nat} {env : String} {now : Nat}
    (h : request_deployment r pay sender ru br ch bc od ew env now = .ok r2) :
    ∃ version,
      get_next_version r ru sender = .ok version ∧
      r.min_payment_usdc ≤ pay ∧
      tcontains r.deployments r.next_id = false ∧
      r2 = { r with
             deployments := tadd r.deployments r.next_id
               (new_deploy_record r pay sender ru br ch bc od ew env now version)
             user_deployments := tmodify
               (if tcontains r.user_deployments sender then r.user_deployments
                else tadd r.user_deployments sender []) sender
               (fun l => l ++ [r.next_id])
             total_deployments := r.total_deployments + 1
             total_usdc_collected := r.total_usdc_collected + pay
             next_id := r.next_id + 1 } := by
  simp only [request_deployment] at h
  split at h
  · simp at h
  next hpay =>
    split at h
    · simp at h
    next version hv =>
      split at h
      · simp at h
      next hfresh =>
        refine ⟨version, hv, by omega, by simpa using hfresh, ?_⟩
        injection h with h2
        rw [← h2]
        rfl

/-- The record created by a successful `request_rollback_deployment`: fields
copied from the parent, `version` included, `deployment_type = 2`. -/
def new_rollback_record (r : DeploymentRegistry) (payment_amount sender : Nat)
    (parent_deployment_id : Nat) (parent : DeploymentRecord) (now : Nat) : DeploymentRecord :=
  { deployment_id := r.next_id
    user := sender
    repo_url := parent.repo_url
    commit_hash := parent.commit_hash
    branch := parent.branch
    walrus_site_id := ""
    usdc_paid := payment_amount
    estimated_wal := parent.estimated_wal
    actual_wal_used := 0
    created_at := now
    deployed_at := 0
    status := STATUS_PENDING
    build_command := parent.build_command
    output_dir := parent.output_dir
    version := parent.version
    error_message := ""
    environment := parent.environment
    deployment_type := 2
    parent_deployment_id := some parent_deployment_id
    metadata := "\x7b\"type\":\"rollback\"\x7d" }

theorem request_rollback_ok {r r2 : DeploymentRegistry} {pay sender pid now : Nat}
    (h : request_rollback_deployment r pay sender pid now = .ok r2) :
    ∃ parent l,
      tlookup r.deployments pid = some parent ∧
      parent.user = sender ∧
      tcontains r.deployments r.next_id = false ∧
      tlookup r.user_deployments sender = some l ∧
      r2 = { r with
             deployments := tadd r.deployments r.next_id
               (new_rollback_record r pay sender pid parent now)
             user_deployments := tmodify r.user_deployments sender
               (fun l2 => l2 ++ [r.next_id])
             total_deployments := r.total_deployments + 1
             next_id := r.next_id + 1 } := by
  simp only [request_rollback_deployment] at h
  split at h
  · simp at h
  next parent hparent =>
    split at h
    · simp at h
    next huser =>
      split at h
      · simp at h
      next hfresh =>
        split at h
        · simp at h
        next l hl =>
          refine ⟨parent, l, hparent, by simpa using huser, by simpa using hfresh, hl, ?_⟩
          injection h with h2
          rw [← h2]
          rfl

theorem mark_processing_ok {r r2 : DeploymentRegistry} {id : Nat}
    (h : mark_processing r id = .ok r2) :
    ∃ d, tlookup r.deployments id = some d ∧ d.status = STATUS_PENDING ∧
      r2 = { r with
             deployments := tmodify r.deployments id
               (fun d2 => { d2 with status := STATUS_PROCESSING }) } := by
  simp only [mark_processing] at h
  split at h
  · simp at h
  next d hd =>
    split at h
    next hs =>
      refine ⟨d, hd, hs, ?_⟩
      injection h with h2
      rw [← h2]
    · simp at h

theorem mark_deployed_ok {r r2 : DeploymentRegistry} {id : Nat}
    {site : String} {wal now : Nat}
    (h : mark_deployed r id site wal now = .ok r2) :
    ∃ d, tlookup r.deployments id = some d ∧ d.status = STATUS_PROCESSING ∧
      r2 = { r with
             deployments := tmodify r.deployments id
               (fun d2 => { d2 with
                 status := STATUS_DEPLOYED
                 walrus_site_id := site
                 actual_wal_used := wal
                 deployed_at := now }) } := by
  simp only [mark_deployed] at h
  split at h
  · simp at h
  next d hd =>
    split at h
    next hs =>
      refine ⟨d, hd, hs, ?_⟩
      injection h with h2
      rw [← h2]
    · simp at h

theorem mark_failed_ok {r r2 : DeploymentRegistry} {id : Nat}
    {msg : String} {now : Nat}
    (h : mark_failed r id msg now = .ok r2) :
    ∃ d, tlookup r.deployments id = some d ∧
      r2 = { r with
             deployments := tmodify r.deployments id
               (fun d2 => { d2 with status := STATUS_FAILED, error_message := msg }) } := by
  simp only [mark_failed] at h
  split at h
  · simp at h
  next d hd =>
    refine ⟨d, hd, ?_⟩
    injection h with h2
    rw [← h2]

theorem tcontains_false_lookup {α : Type} {t : List (Nat × α)} {k : Nat}
    (h : tcontains t k = false) : tlookup t k = none := by
  cases hl : tlookup t k with
  | none => rfl
  | some v => rw [tcontains, hl] at h; simp at h

theorem request_deployment_inv {r r2 : DeploymentRegistry} {pay sender : Nat}
    {ru br ch bc od : String} {ew : Nat} {env : String} {now : Nat}
    (hinv : RegInv r)
    (h : request_deployment r pay sender ru br ch bc od ew env now = .ok r2) :
    RegInv r2 := by
  obtain ⟨version, _hv, _hpay, hfresh, hr2⟩ := request_deployment_ok h
  obtain ⟨hA, hB⟩ := hinv
  have hfresh' : tlookup r.deployments r.next_id = none := tcontains_false_lookup hfresh
  have hstage_some : ∀ ol, tlookup r.user_deployments sender = some ol →
      tlookup (if tcontains r.user_deployments sender then r.user_deployments
        else tadd r.user_deployments sender []) sender = some ol := by
    intro ol hol
    rw [if_pos ((tcontains_iff _ _).2 ⟨ol, hol⟩), hol]
  have hstage_none : tlookup r.user_deployments sender = none →
      tlookup (if tcontains r.user_deployments sender then r.user_deployments
        else tadd r.user_deployments sender []) sender = some [] := by
    intro hnone
    have hc : ¬ tcontains r.user_deployments sender = true := by simp [tcontains, hnone]
    rw [if_neg hc, tlookup_tadd, hnone]
    simp
  have hstage_other : ∀ u, ¬ (sender = u) →
      tlookup (if tcontains r.user_deployments sender then r.user_deployments
        else tadd r.user_deployments sender []) u = tlookup r.user_deployments u := by
    intro u hu
    by_cases hc : tcontains r.user_deployments sender = true
    · rw [if_pos hc]
    · rw [if_neg hc, tlookup_tadd]
      cases hl : tlookup r.user_deployments u with
      | some w => rfl
      | none => simp [hu]
  have hD2 : ∀ k d0, tlookup r.deployments k = some d0 →
      tlookup (tadd r.deployments r.next_id
        (new_deploy_record r pay sender ru br ch bc od ew env now version)) k = some d0 := by
    intro k d0 hd0
    rw [tlookup_tadd, hd0]
  have hD2n : tlookup (tadd r.deployments r.next_id
      (new_deploy_record r pay sender ru br ch bc od ew env now version)) r.next_id =
      some (new_deploy_record r pay sender ru br ch bc od ew env now version) := by
    rw [tlookup_tadd, hfresh']
    simp
  subst hr2
  constructor
  · intro u l hl
    dsimp only at hl ⊢
    rw [tlookup_tmodify] at hl
    by_cases hu : sender = u
    · subst hu
      rw [if_pos rfl] at hl
      cases hls : tlookup r.user_deployments sender with
      | some ol =>
        rw [hstage_some ol hls] at hl
        simp only [Option.map_some'] at hl
        injection hl with hl
        subst hl
        obtain ⟨hpar, hmem⟩ := hA sender ol hls
        refine ⟨?_, ?_⟩
        · refine pairwise_append_lt hpar ?_
          intro x hx
          obtain ⟨d, hd, _⟩ := hmem x hx
          exact (hB x d hd).1
        · intro id hid
          rcases List.mem_append.1 hid with hid | hid
          · obtain ⟨d, hd, hdu⟩ := hmem id hid
            exact ⟨d, hD2 id d hd, hdu⟩
          · simp at hid
            subst hid
            exact ⟨_, hD2n, rfl⟩
      | none =>
        rw [hstage_none hls] at hl
        simp only [Option.map_some', List.nil_append] at hl
        injection hl with hl
        subst hl
        refine ⟨List.pairwise_singleton _ _, ?_⟩
        intro id hid
        simp at hid
        subst hid
        exact ⟨_, hD2n, rfl⟩
    · rw [if_neg hu, hstage_other u hu] at hl
      obtain ⟨hpar, hmem⟩ := hA u l hl
      refine ⟨hpar, ?_⟩
      intro id hid
      obtain ⟨d, hd, hdu⟩ := hmem id hid
      exact ⟨d, hD2 id d hd, hdu⟩
  · intro k d hk
    dsimp only at hk ⊢
    rw [tlookup_tadd] at hk
    cases hld : tlookup r.deployments k with
    | some d0 =>
      rw [hld] at hk
      injection hk with hk
      subst hk
      obtain ⟨hlt, l0, hl0, hmem⟩ := hB k d0 hld
      refine ⟨by omega, ?_⟩
      rw [tlookup_tmodify]
      by_cases hu : sender = d0.user
      · rw [if_pos hu]
        rw [← hu] at hl0
        rw [hstage_some l0 hl0]
        exact ⟨l0 ++ [r.next_id], rfl, List.mem_append_left _ hmem⟩
      · rw [if_neg hu, hstage_other d0.user hu]
        exact ⟨l0, hl0, hmem⟩
    | none =>
      rw [hld] at hk
      by_cases hnk : r.next_id = k
      · subst hnk
        rw [if_pos rfl] at hk
        injection hk with hk
        subst hk
        refine ⟨by omega, ?_⟩
        rw [tlookup_tmodify]
        have hrecu : (new_deploy_record r pay sender ru br ch bc od ew env now version).user
            = sender := rfl
        rw [hrecu, if_pos rfl]
        cases hls : tlookup r.user_deployments sender with
        | some ol =>
          rw [hstage_some ol hls]
          exact ⟨ol ++ [r.next_id], rfl, List.mem_append_right _ (by simp)⟩
        | none =>
          rw [hstage_none hls]
          exact ⟨[] ++ [r.next_id], rfl, by simp⟩
      · rw [if_neg hnk] at hk
        simp at hk

theorem request_rollback_inv {r r2 : DeploymentRegistry} {pay sender pid now : Nat}
    (hinv : RegInv r)
    (h : request_rollback_deployment r pay sender pid now = .ok r2) :
    RegInv r2 := by
  obtain ⟨parent, lsender, _hp, _hu, hfresh, hlsender, hr2⟩ := request_rollback_ok h
  obtain ⟨hA, hB⟩ := hinv
  have hfresh' : tlookup r.deployments r.next_id = none := tcontains_false_lookup hfresh
  have hD2 : ∀ k d0, tlookup r.deployments k = some d0 →
      tlookup (tadd r.deployments r.next_id
        (new_rollback_record r pay sender pid parent now)) k = some d0 := by
    intro k d0 hd0
    rw [tlookup_tadd, hd0]
  have hD2n : tlookup (tadd r.deployments r.next_id
      (new_rollback_record r pay sender pid parent now)) r.next_id =
      some (new_rollback_record r pay sender pid parent now) := by
    rw [tlookup_tadd, hfresh']
    simp
  subst hr2
  constructor
  · intro u l hl
    dsimp only at hl ⊢
    rw [tlookup_tmodify] at hl
    by_cases hu : sender = u
    · subst hu
      rw [if_pos rfl, hlsender] at hl
      simp only [Option.map_some'] at hl
      injection hl with hl
      subst hl
      obtain ⟨hpar, hmem⟩ := hA sender lsender hlsender
      refine ⟨?_, ?_⟩
      · refine pairwise_append_lt hpar ?_
        intro x hx
        obtain ⟨d, hd, _⟩ := hmem x hx
        exact (hB x d hd).1
      · intro id hid
        rcases List.mem_append.1 hid with hid | hid
        · obtain ⟨d, hd, hdu⟩ := hmem id hid
          exact ⟨d, hD2 id d hd, hdu⟩
        · simp at hid
          subst hid
          exact ⟨_, hD2n, rfl⟩
    · rw [if_neg hu] at hl
      obtain ⟨hpar, hmem⟩ := hA u l hl
      refine ⟨hpar, ?_⟩
      intro id hid
      obtain ⟨d, hd, hdu⟩ := hmem id hid
      exact ⟨d, hD2 id d hd, hdu⟩
  · intro k d hk
    dsimp only at hk ⊢
    rw [tlookup_tadd] at hk
    cases hld : tlookup r.deployments k with
    | some d0 =>
      rw [hld] at hk
      injection hk with hk
      subst hk
      obtain ⟨hlt, l0, hl0, hmem⟩ := hB k d0 hld
      refine ⟨by omega, ?_⟩
      rw [tlookup_tmodify]
      by_cases hu : sender = d0.user
      · rw [if_pos hu]
        rw [← hu, hlsender] at hl0
        injection hl0 with hl0
        subst hl0
        rw [hlsender]
        exact ⟨lsender ++ [r.next_id], rfl, List.mem_append_left _ hmem⟩
      · rw [if_neg hu]
        exact ⟨l0, hl0, hmem⟩
    | none =>
      rw [hld] at hk
      by_cases hnk : r.next_id = k
      · subst hnk
        rw [if_pos rfl] at hk
        injection hk with hk
        subst hk
        refine ⟨by omega, ?_⟩
        rw [tlookup_tmodify]
        have hrecu : (new_rollback_record r pay sender pid parent now).user = sender := rfl
        rw [hrecu, if_pos rfl, hlsender]
        exact ⟨lsender ++ [r.next_id], rfl, List.mem_append_right _ (by simp)⟩
      · rw [if_neg hnk] at hk
        simp at hk

theorem dstep_inv {r r2 : DeploymentRegistry} (hs : DStep r r2) (hinv : RegInv r) :
    RegInv r2 := by
  cases hs with
  | request h => exact request_deployment_inv hinv h
  | rollback h => exact request_rollback_inv hinv h
  | processing h =>
    obtain ⟨d, _, _, hr2⟩ := mark_processing_ok h
    subst hr2
    exact reg_inv_tmodify hinv _ _ (fun _ => rfl)
  | deployed h =>
    obtain ⟨d, _, _, hr2⟩ := mark_deployed_ok h
    subst hr2
    exact reg_inv_tmodify hinv _ _ (fun _ => rfl)
  | failed h =>
    obtain ⟨d, _, hr2⟩ := mark_failed_ok h
    subst hr2
    exact reg_inv_tmodify hinv _ _ (fun _ => rfl)

/-- Every reachable deployment-registry state satisfies the structural
invariant. -/
theorem dreachable_inv {r : DeploymentRegistry} (h : DReachable r) : RegInv r := by
  induction h with
  | init => exact reg_inv_init
  | step _ hs ih => exact dstep_inv hs ih

/-- Under the structural invariant, once the parent-ownership check passes,
`request_rollback_deployment` succeeds: the caller's `user_deployments`
entry exists (the parent record guarantees it), and the fresh id cannot
collide.  Note that no condition on `payment_amount` is required. -/
theorem rollback_succeeds {r : DeploymentRegistry} (hinv : RegInv r)
    {pid : Nat} {parent : DeploymentRecord} (hp : tlookup r.deployments pid = some parent)
    {sender : Nat} (hu : parent.user = sender) (pay now : Nat) :
    request_rollback_deployment r pay sender pid now =
      .ok { r with
            deployments := tadd r.deployments r.next_id
              (new_rollback_record r pay sender pid parent now)
            user_deployments := tmodify r.user_deployments sender
              (fun l2 => l2 ++ [r.next_id])
            total_deployments := r.total_deployments + 1
            next_id := r.next_id + 1 } := by
  obtain ⟨l, hl, _⟩ := (hinv.2 pid parent hp).2
  rw [hu] at hl
  have hfresh : ¬ tcontains r.deployments r.next_id = true := by
    simp [tcontains, fresh_not_in hinv]
  simp only [request_rollback_deployment, hp, hu]
  simp [hfresh, hl, new_rollback_record]

/-- `true` iff the id resolves to a record with the given repo url. -/
def matches_repo (deployments : List (Nat × DeploymentRecord)) (repo_url : String)
    (id : Nat) : Bool :=
  match tlookup deployments id with
  | some d => d.repo_url == repo_url
  | none => false

/-- Count of a user's existing deployment records (regular and rollback)
with the given repo url — the quantity `get_next_version` folds over. -/
def count_user_repo (r : DeploymentRegistry) (user : Nat) (repo_url : String) : Nat :=
  (get_user_deployments r user).countP (matches_repo r.deployments repo_url)

theorem version_loop_count (D : List (Nat × DeploymentRecord)) (ru : String) :
    ∀ (ids : List Nat) (v : Nat),
      (∀ id ∈ ids, (tlookup D id).isSome = true) →
      version_loop D ru ids v = .ok (v + ids.countP (matches_repo D ru)) := by
  intro ids
  induction ids with
  | nil =>
    intro v _
    simp [version_loop]
  | cons id rest ih =>
    intro v h
    have hid : (tlookup D id).isSome = true := h id (by simp)
    cases hd : tlookup D id with
    | none => rw [hd] at hid; simp at hid
    | some d =>
      have hrest : ∀ k ∈ rest, (tlookup D k).isSome = true := by
        intro k hk
        exact h k (by simp [hk])
      rw [version_loop, hd]
      dsimp only
      rw [ih _ hrest, List.countP_cons]
      have hmatch : matches_repo D ru id = (d.repo_url == ru) := by
        simp [matches_repo, hd]
      by_cases heq : d.repo_url = ru
      · simp [heq, hmatch]
        omega
      · have hne : (d.repo_url == ru) = false := by
          simp [heq]
        simp [heq, hmatch, hne]

/-- Under the invariant, `get_next_version` returns exactly
`1 + count of the user's records with matching repo url`. -/
theorem get_next_version_count {r : DeploymentRegistry} (hinv : RegInv r)
    (ru : String) (user : Nat) :
    get_next_version r ru user = .ok (1 + count_user_repo r user ru) := by
  unfold get_next_version count_user_repo get_user_deployments
  cases hl : tlookup r.user_deployments user with
  | none => simp
  | some l =>
    have hres : ∀ id ∈ l, (tlookup r.deployments id).isSome = true := by
      intro id hid
      obtain ⟨d, hd, _⟩ := (hinv.1 user l hl).2 id hid
      simp [hd]
    exact version_loop_count r.deployments ru l 1 hres

theorem tstage_some {α : Type} {t : List (Nat × α)} {k : Nat} (v0 : α) {w : α}
    (h : tlookup t k = some w) :
    tlookup (if tcontains t k then t else tadd t k v0) k = some w := by
  rw [if_pos ((tcontains_iff _ _).2 ⟨w, h⟩), h]

theorem tstage_none {α : Type} {t : List (Nat × α)} {k : Nat} (v0 : α)
    (h : tlookup t k = none) :
    tlookup (if tcontains t k then t else tadd t k v0) k = some v0 := by
  have hc : ¬ tcontains t k = true := by simp [tcontains, h]
  rw [if_neg hc, tlookup_tadd, h]
  simp

/-- A successful `request_deployment` stores, under the fresh id, a record
for `(sender, repo_url)` whose `version` is `1` plus the count of the
sender's existing records with the same repo url, and it raises that count
by exactly one. -/
theorem request_deployment_version {r r2 : DeploymentRegistry} {pay sender : Nat}
    {ru br ch bc od : String} {ew : Nat} {env : String} {now : Nat}
    (hinv : RegInv r)
    (h : request_deployment r pay sender ru br ch bc od ew env now = .ok r2) :
    ∃ rec, tlookup r2.deployments r.next_id = some rec ∧
      rec.repo_url = ru ∧ rec.user = sender ∧
      rec.version = 1 + count_user_repo r sender ru ∧
      count_user_repo r2 sender ru = count_user_repo r sender ru + 1 := by
  obtain ⟨version, hv, _hpay, hfresh, hr2⟩ := request_deployment_ok h
  have hfresh' := tcontains_false_lookup hfresh
  rw [get_next_version_count hinv ru sender] at hv
  injection hv with hv
  refine ⟨new_deploy_record r pay sender ru br ch bc od ew env now version,
    ?_, rfl, rfl, ?_, ?_⟩
  · subst hr2
    dsimp only
    rw [tlookup_tadd, hfresh']
    simp
  · exact hv.symm
  · have hmn : matches_repo
        (tadd r.deployments r.next_id
          (new_deploy_record r pay sender ru br ch bc od ew env now version)) ru
        r.next_id = true := by
      rw [matches_repo, tlookup_tadd, hfresh']
      simp [new_deploy_record]
    subst hr2
    unfold count_user_repo get_user_deployments
    dsimp only
    rw [tlookup_tmodify, if_pos rfl]
    cases hls : tlookup r.user_deployments sender with
    | some ol =>
      rw [tstage_some [] hls]
      simp only [Option.map_some']
      rw [List.countP_append]
      have hmold : ∀ id ∈ ol,
          matches_repo (tadd r.deployments r.next_id
            (new_deploy_record r pay sender ru br ch bc od ew env now version)) ru id =
          matches_repo r.deployments ru id := by
        intro id hid
        obtain ⟨d, hd, _⟩ := (hinv.1 sender ol hls).2 id hid
        rw [matches_repo, matches_repo, hd, tlookup_tadd, hd]
      rw [List.countP_congr (fun x hx => by rw [hmold x hx])]
      simp [List.countP_cons, hmn]
    | none =>
      rw [tstage_none [] hls]
      simp only [Option.map_some', List.nil_append]
      simp [List.countP_cons, hmn]

/-! ## Subscription invariant -/

/-- `total_spent` of every stored subscription equals the sum of its payment
history amounts. -/
def SubInv (r : SubscriptionRegistry) : Prop :=
  ∀ u s, tlookup r.subscriptions u = some s →
    s.total_spent = sumAmounts s.payment_history

theorem sumAmounts_append (l : List PaymentRecord) (p : PaymentRecord) :
    sumAmounts (l ++ [p]) = sumAmounts l + p.amount := by
  induction l with
  | nil => simp [sumAmounts]
  | cons q rest ih => simp [sumAmounts, ih]; omega

theorem subscribe_ok {r r2 : SubscriptionRegistry} {pay tier : Nat} {ar : Bool}
    {user now : Nat} (h : subscribe r pay tier ar user now = .ok r2) :
    ∃ required tier_count,
      (0 < tier ∧ tier ≤ 3) ∧
      tcontains r.subscriptions user = false ∧
      vborrow r.tier_prices tier = .ok required ∧
      required ≤ pay ∧
      vborrow r.active_subscriptions tier = .ok tier_count ∧
      r2 = { r with
             subscriptions := tadd r.subscriptions user
               { user := user
                 tier := tier
                 start_date := now
                 end_date := now + SECONDS_IN_MONTH
                 deployments_used := 0
                 bandwidth_used := 0
                 auto_renew := ar
                 payment_history := [{ amount := pay, timestamp := now
                                       tier := tier, transaction_id := 0 }]
                 total_spent := pay }
             active_subscriptions := vset r.active_subscriptions tier (tier_count + 1)
             total_revenue := r.total_revenue + pay } := by
  simp only [subscribe] at h
  split at h
  · simp at h
  next htier =>
    split at h
    · simp at h
    next hcon =>
      split at h
      · simp at h
      next required hreq =>
        split at h
        · simp at h
        next hpay =>
          split at h
          · simp at h
          next tier_count hcount =>
            refine ⟨required, tier_count, by omega, by simpa using hcon,
              hreq, by omega, hcount, ?_⟩
            injection h with h2
            rw [← h2]

theorem renew_ok {r r2 : SubscriptionRegistry} {pay user now : Nat}
    (h : renew_subscription r pay user now = .ok r2) :
    ∃ sub required,
      tlookup r.subscriptions user = some sub ∧
      vborrow r.tier_prices sub.tier = .ok required ∧
      required ≤ pay ∧
      r2 = { r with
             subscriptions := tmodify r.subscriptions user (fun s =>
               { s with
                 end_date :=
                   if sub.end_date < now then now + SECONDS_IN_MONTH
                   else sub.end_date + SECONDS_IN_MONTH
                 deployments_used := 0
                 bandwidth_used := 0
                 payment_history := s.payment_history ++
                   [{ amount := pay, timestamp := now
                      tier := sub.tier, transaction_id := 0 }]
                 total_spent := s.total_spent + pay })
             total_revenue := r.total_revenue + pay } := by
  simp only [renew_subscription] at h
  split at h
  · simp at h
  next sub hsub =>
    split at h
    · simp at h
    next required hreq =>
      split at h
      · simp at h
      next hpay =>
        refine ⟨sub, required, hsub, hreq, by omega, ?_⟩
        injection h with h2
        rw [← h2]

theorem upgrade_ok {r r2 : SubscriptionRegistry} {pay new_tier user : Nat}
    (h : upgrade_tier r pay new_tier user = .ok r2) :
    ∃ sub, tlookup r.subscriptions user = some sub ∧
      r2.subscriptions = tmodify r.subscriptions user (fun s => { s with tier := new_tier }) := by
  simp only [upgrade_tier] at h
  split at h
  · simp at h
  split at h
  · simp at h
  next sub hsub =>
    split at h
    · simp at h
    split at h
    · simp at h
    · simp at h
    next new_price old_price hnp hop =>
      split at h
      · simp at h
      next price_diff hdiff =>
        split at h
        · simp at h
        next hpay =>
          split at h
          · simp at h
          next old_count hoc =>
            split at h
            · simp at h
            next oc2 hoc2 =>
              split at h
              · simp at h
              next new_count hnc =>
                refine ⟨sub, hsub, ?_⟩
                injection h with h2
                rw [← h2]

theorem cancel_ok {r r2 : SubscriptionRegistry} {user : Nat}
    (h : cancel_subscription r user = .ok r2) :
    r2.subscriptions = tmodify r.subscriptions user
      (fun s => { s with auto_renew := false }) := by
  simp only [cancel_subscription] at h
  split at h
  · simp at h
  · injection h with h2
    rw [← h2]

/-- `tmodify` with a function preserving the spent/history equation
preserves `SubInv`. -/
theorem sub_inv_tmodify {r : SubscriptionRegistry} (hinv : SubInv r) {user : Nat}
    {f : Subscription → Subscription}
    (hf : ∀ s, s.total_spent = sumAmounts s.payment_history →
      (f s).total_spent = sumAmounts (f s).payment_history)
    {u : Nat} {s : Subscription}
    (hs : tlookup (tmodify r.subscriptions user f) u = some s) :
    s.total_spent = sumAmounts s.payment_history := by
  rw [tlookup_tmodify] at hs
  by_cases hu : user = u
  · rw [if_pos hu] at hs
    cases hl : tlookup r.subscriptions user with
    | none => rw [hl] at hs; simp at hs
    | some s0 =>
      rw [hl] at hs
      simp only [Option.map_some'] at hs
      injection hs with hs
      subst hs
      exact hf s0 (hinv user s0 hl)
  · rw [if_neg hu] at hs
    exact hinv u s hs

theorem substep_inv {r r2 : SubscriptionRegistry} (hs : SubStep r r2) (hinv : SubInv r) :
    SubInv r2 := by
  cases hs with
  | subscribeStep h =>
    obtain ⟨required, tier_count, _, hcon, _, _, _, hr2⟩ := subscribe_ok h
    subst hr2
    intro u s hsu
    dsimp only at hsu
    rw [tlookup_tadd] at hsu
    cases hl : tlookup r.subscriptions u with
    | some s0 =>
      rw [hl] at hsu
      dsimp only at hsu
      injection hsu with hsu
      subst hsu
      exact hinv u s0 hl
    | none =>
      rw [hl] at hsu
      dsimp only at hsu
      split at hsu
      · injection hsu with hsu
        subst hsu
        simp [sumAmounts]
      · simp at hsu
  | renewStep h =>
    obtain ⟨sub, required, hsub, hreq, hpay, hr2⟩ := renew_ok h
    subst hr2
    intro u s hsu
    dsimp only at hsu
    refine sub_inv_tmodify hinv ?_ hsu
    intro s0 h0
    dsimp only
    rw [sumAmounts_append, ← h0]
  | upgradeStep h =>
    obtain ⟨sub, hsub, hsubs⟩ := upgrade_ok h
    intro u s hsu
    rw [hsubs] at hsu
    refine sub_inv_tmodify hinv ?_ hsu
    intro s0 h0
    exact h0
  | cancelStep h =>
    have hsubs := cancel_ok h
    intro u s hsu
    rw [hsubs] at hsu
    refine sub_inv_tmodify hinv ?_ hsu
    intro s0 h0
    exact h0
  | recordStep =>
    intro u s hsu
    rw [record_deployment] at hsu
    split at hsu
    · dsimp only at hsu
      refine sub_inv_tmodify hinv ?_ hsu
      intro s0 h0
      exact h0
    · exact hinv u s hsu

theorem sub_inv_init : SubInv init_sub_registry := by
  intro u s h
  simp [init_sub_registry, tlookup] at h

/-- Every reachable subscription-registry state satisfies the
spent/history equation. -/
theorem subreachable_inv {r : SubscriptionRegistry} (h : SubReachable r) : SubInv r := by
  induction h with
  | init => exact sub_inv_init
  | step _ hs ih => exact substep_inv hs ih

/-! ## Payment processor invariant -/

theorem batch_loop_spec (ps : List Nat) :
    ∀ (buf ta i : Nat) (ids : List String) (user now : Nat) (buf2 ta2 : Nat)
      (rem : List Nat) (evs : List PaymentProcessed),
      batch_loop buf ta i ps ids user now = .ok (buf2, ta2, rem, evs) →
      buf2 + ta = buf + ta2 ∧ ta ≤ ta2 := by
  induction ps using List.reverseRecOn with
  | nil =>
    intro buf ta i ids user now buf2 ta2 rem evs h
    rw [batch_loop] at h
    simp only [List.length_nil, Nat.not_lt_zero, dif_neg, not_false_iff] at h
    injection h with h2
    injection h2 with hbuf h3
    injection h3 with hta _
    omega
  | append_singleton l a ih =>
    intro buf ta i ids user now buf2 ta2 rem evs h
    rw [batch_loop] at h
    by_cases hi : i < (l ++ [a]).length
    · rw [dif_pos hi] at h
      rw [List.getLast?_concat] at h
      dsimp only at h
      cases hid : ids.get? i with
      | none => rw [hid] at h; simp at h
      | some dep =>
        rw [hid] at h
        dsimp only at h
        rw [List.dropLast_concat] at h
        cases hrec : batch_loop (buf + a) (ta + a) (i + 1) l ids user now with
        | error e => rw [hrec] at h; simp at h
        | ok res =>
          obtain ⟨buf3, ta3, rem3, evs3⟩ := res
          rw [hrec] at h
          dsimp only at h
          injection h with h2
          injection h2 with hbuf h3
          injection h3 with hta h4
          injection h4 with hrem hevs
          subst hbuf
          subst hta
          have := ih (buf + a) (ta + a) (i + 1) ids user now buf3 ta3 rem3 evs3 hrec
          omega
    · rw [dif_neg hi] at h
      injection h with h2
      injection h2 with hbuf h3
      injection h3 with hta _
      omega

theorem batch_ok {p p2 : PaymentProcessor} {ps : List Nat} {ids : List String}
    {user now : Nat} {evs : List PaymentProcessed}
    (h : batch_process_payments p ps ids user now = .ok (p2, evs)) :
    ∃ ta, p2.usdc_buffer = p.usdc_buffer + ta ∧
      p2.total_usdc_processed = p.total_usdc_processed + ta ∧
      p2.wal_buffer = p.wal_buffer := by
  simp only [batch_process_payments] at h
  split at h
  · simp at h
  next buf ta rem evs0 heq =>
    split at h
    · injection h with h2
      injection h2 with hp2 hevs
      obtain ⟨hb, _⟩ := batch_loop_spec ps p.usdc_buffer 0 0 ids user now buf ta rem evs0 heq
      refine ⟨ta, ?_, ?_, ?_⟩
      · rw [← hp2]
        dsimp only
        omega
      · rw [← hp2]
      · rw [← hp2]
    · simp at h

theorem pstep_mono {s s2 : PaymentProcessor × Nat} (h : PStep s s2) :
    s.1.total_usdc_processed ≤ s2.1.total_usdc_processed := by
  cases h with
  | process hp =>
    injection hp with h2
    injection h2 with hp2 _
    rw [← hp2]
    dsimp only
    omega
  | swap hp =>
    rw [simulate_swap] at hp
    split at hp
    · simp at hp
    · injection hp with h2
      injection h2 with hp2 _
      rw [← hp2]
  | transferWal hp =>
    rw [transfer_wal_to_treasury] at hp
    split at hp
    · simp at hp
    · injection hp with hp2
      rw [← hp2]
  | emergency hp =>
    rw [emergency_withdraw_usdc] at hp
    split at hp
    · simp at hp
    · injection hp with h2
      injection h2 with hp2 _
      rw [← hp2]
  | config => exact Nat.le_refl _
  | batch hp =>
    obtain ⟨ta, _, htot, _⟩ := batch_ok hp
    dsimp only
    rw [htot]
    omega

theorem preachable_inv {s : PaymentProcessor × Nat} (h : PReachable s) :
    s.1.usdc_buffer + s.2 = s.1.total_usdc_processed := by
  induction h with
  | init => rfl
  | step hr hs ih =>
    cases hs with
    | process hp =>
      injection hp with h2
      injection h2 with hp2 _
      rw [← hp2]
      dsimp only at ih ⊢
      omega
    | swap hp =>
      rw [simulate_swap] at hp
      split at hp
      · simp at hp
      next hpos =>
        injection hp with h2
        injection h2 with hp2 hout
        rw [← hp2, ← hout]
        dsimp only at ih ⊢
        omega
    | transferWal hp =>
      rw [transfer_wal_to_treasury] at hp
      split at hp
      · simp at hp
      · injection hp with hp2
        rw [← hp2]
        dsimp only at ih ⊢
        omega
    | emergency hp =>
      rw [emergency_withdraw_usdc] at hp
      split at hp
      · simp at hp
      next hpos =>
        injection hp with h2
        injection h2 with hp2 hout
        rw [← hp2, ← hout]
        dsimp only at ih ⊢
        omega
    | config =>
      dsimp only at ih ⊢
      exact ih
    | batch hp =>
      obtain ⟨ta, hbuf, htot, _⟩ := batch_ok hp
      dsimp only at ih ⊢
      rw [hbuf, htot]
      omega

/-! ## Claim theorems -/

/-- A deployment record used to build small concrete registries. -/
def sample_record (status : Nat) : DeploymentRecord :=
  { deployment_id := 0
    user := 1
    repo_url := "repo"
    commit_hash := "c"
    branch := "main"
    walrus_site_id := ""
    usdc_paid := 5000000
    estimated_wal := 0
    actual_wal_used := 0
    created_at := 0
    deployed_at := 0
    status := status
    build_command := "b"
    output_dir := "d"
    version := 1
    error_message := ""
    environment := "prod"
    deployment_type := 0
    parent_deployment_id := none
    metadata := "\x7b\x7d" }

/-- C1 (amended): `mark_processing` succeeds exactly on `Pending` records and
otherwise fails with `InvalidStatusTransition`; `mark_deployed` succeeds
exactly on `Processing` records and otherwise fails likewise; but
`mark_failed` checks nothing — it succeeds on every existing record,
including records already `Deployed` or `Failed`, overwriting their status
with `Failed`. -/
theorem C1_transitions {reg : DeploymentRegistry} {id : Nat} {d : DeploymentRecord}
    (h : tlookup reg.deployments id = some d)
    (site msg : String) (wal now : Nat) :
    (d.status = STATUS_PENDING →
      mark_processing reg id = .ok { reg with
        deployments := tmodify reg.deployments id
          (fun d2 => { d2 with status := STATUS_PROCESSING }) }) ∧
    (d.status ≠ STATUS_PENDING →
      mark_processing reg id = .error (.code E_INVALID_STATUS)) ∧
    (d.status = STATUS_PROCESSING →
      mark_deployed reg id site wal now = .ok { reg with
        deployments := tmodify reg.deployments id
          (fun d2 => { d2 with
            status := STATUS_DEPLOYED
            walrus_site_id := site
            actual_wal_used := wal
            deployed_at := now }) }) ∧
    (d.status ≠ STATUS_PROCESSING →
      mark_deployed reg id site wal now = .error (.code E_INVALID_STATUS)) ∧
    mark_failed reg id msg now = .ok { reg with
      deployments := tmodify reg.deployments id
        (fun d2 => { d2 with status := STATUS_FAILED, error_message := msg }) } := by
  refine ⟨?_, ?_, ?_, ?_, ?_⟩
  · intro hst
    simp only [mark_processing, h]
    rw [if_pos hst]
  · intro hst
    simp only [mark_processing, h]
    rw [if_neg hst]
  · intro hst
    simp only [mark_deployed, h]
    rw [if_pos hst]
  · intro hst
    simp only [mark_deployed, h]
    rw [if_neg hst]
  · simp only [mark_failed, h]

def c1w_reg : DeploymentRegistry :=
  { init_registry with
    deployments := [(0, sample_record STATUS_PENDING)]
    user_deployments := [(1, [0])]
    next_id := 1 }

theorem C1_transitions_witness :
    moveOk (mark_processing c1w_reg 0) = true ∧
    mark_deployed c1w_reg 0 "s" 3 4 = .error (.code E_INVALID_STATUS) := by
  have h := @C1_transitions c1w_reg 0 (sample_record STATUS_PENDING) rfl "s" "m" 3 4
  refine ⟨?_, h.2.2.2.1 (by decide)⟩
  rw [h.1 rfl]
  rfl

def c1c_reg : DeploymentRegistry :=
  { init_registry with
    deployments := [(0, sample_record STATUS_DEPLOYED)]
    user_deployments := [(1, [0])]
    next_id := 1 }

/-- C1 counterexample: on a registry whose only record is already
`Deployed`, `mark_failed` nevertheless succeeds and rewrites the status to
`Failed` — refuting "once a record is Deployed or Failed no further status
transition on it succeeds". -/
theorem C1_deployed_not_terminal :
    (tlookup c1c_reg.deployments 0).map DeploymentRecord.status = some STATUS_DEPLOYED ∧
    moveOk (mark_failed c1c_reg 0 "boom" 9) = true ∧
    ((mark_failed c1c_reg 0 "boom" 9).toOption.bind
      (fun r2 => (tlookup r2.deployments 0).map DeploymentRecord.status)) =
      some STATUS_FAILED := by
  decide

/-- C2 (amended): on any reachable (invariant-satisfying) registry,
`request_deployment` stores a record whose `version` is `1` plus the count
of the caller's existing records with the same repo url and raises that
count by one — so an uninterrupted sequence of successful
`request_deployment`s for a fixed `(user, repoUrl)` receives versions
`1, 2, 3, …` — but `request_rollback_deployment` copies the parent's
`version` unchanged instead of incrementing it. -/
theorem C2_versioning {r : DeploymentRegistry} (hinv : RegInv r) :
    (∀ r2 pay sender ru br ch bc od ew env now,
      request_deployment r pay sender ru br ch bc od ew env now = .ok r2 →
      ∃ rec, tlookup r2.deployments r.next_id = some rec ∧
        rec.version = 1 + count_user_repo r sender ru ∧
        count_user_repo r2 sender ru = count_user_repo r sender ru + 1) ∧
    (∀ r2 pay sender pid now parent,
      tlookup r.deployments pid = some parent →
      request_rollback_deployment r pay sender pid now = .ok r2 →
      ∃ rec, tlookup r2.deployments r.next_id = some rec ∧
        rec.version = parent.version) := by
  constructor
  · intro r2 pay sender ru br ch bc od ew env now h
    obtain ⟨rec, h1, _, _, h4, h5⟩ := request_deployment_version hinv h
    exact ⟨rec, h1, h4, h5⟩
  · intro r2 pay sender pid now parent hp hroll
    obtain ⟨parent2, l, hp2, hu, hfresh, hl, hr2⟩ := request_rollback_ok hroll
    rw [hp] at hp2
    injection hp2 with hp2
    subst hp2
    subst hr2
    refine ⟨new_rollback_record r pay sender pid parent now, ?_, rfl⟩
    dsimp only
    rw [tlookup_tadd, tcontains_false_lookup hfresh]
    simp

def c2w_reg1 : DeploymentRegistry :=
  match request_deployment init_registry 5000000 1 "repo" "main" "c" "b" "d" 0 "e" 10 with
  | .ok r => r
  | .error _ => init_registry

theorem C2_versioning_witness :
    (tlookup c2w_reg1.deployments 0).map DeploymentRecord.version = some 1 ∧
    count_user_repo c2w_reg1 1 "repo" = 1 := by
  obtain ⟨rec, h1, h2, h3⟩ := (C2_versioning reg_inv_init).1 c2w_reg1 5000000 1 "repo"
    "main" "c" "b" "d" 0 "e" 10 rfl
  constructor
  · rw [show init_registry.next_id = 0 from rfl] at h1
    rw [h1]
    simp only [Option.map_some']
    rw [h2]
    rfl
  · rw [h3]
    rfl

def c2c_afterRollback : Option Nat :=
  match request_deployment init_registry 5000000 1 "repo" "main" "c" "b" "d" 0 "e" 10 with
  | .error _ => none
  | .ok r1 =>
    match request_rollback_deployment r1 5000000 1 0 20 with
    | .error _ => none
    | .ok r2 =>
      match tlookup r2.deployments 1 with
      | some rec => some rec.version
      | none => none

/-- C2 counterexample: deploy `repo` (the record gets version 1), then roll
back to it with a full payment; the newly created rollback record carries
version 1 again, not 2 — refuting "the version strictly increases by 1 with
each successful requestDeployment or requestRollback". -/
theorem C2_rollback_copies_version :
    c2c_afterRollback = some 1 ∧ ¬ c2c_afterRollback = some 2 := by
  decide

/-- C3 (amended): `request_rollback_deployment` enforces no minimum-payment
floor at all: for any payment amount — including amounts below the
registry's `min_payment_usdc`, even zero — the call succeeds whenever the
parent exists and is owned by the caller, and it creates a new deployment
record paying that amount. -/
theorem C3_no_rollback_payment_floor {r : DeploymentRegistry} (hinv : RegInv r)
    {pid : Nat} {parent : DeploymentRecord}
    (hp : tlookup r.deployments pid = some parent) {sender : Nat}
    (hu : parent.user = sender) (pay now : Nat) :
    moveOk (request_rollback_deployment r pay sender pid now) = true ∧
    ∃ r2, request_rollback_deployment r pay sender pid now = .ok r2 ∧
      r2.total_deployments = r.total_deployments + 1 ∧
      tlookup r2.deployments r.next_id =
        some (new_rollback_record r pay sender pid parent now) ∧
      (new_rollback_record r pay sender pid parent now).usdc_paid = pay := by
  have h := rollback_succeeds hinv hp hu pay now
  refine ⟨by rw [h]; rfl, _, h, rfl, ?_, rfl⟩
  dsimp only
  rw [tlookup_tadd, fresh_not_in hinv]
  simp

def c3w_reg1 : DeploymentRegistry :=
  match request_deployment init_registry 5000000 1 "repo" "main" "c" "b" "d" 0 "e" 10 with
  | .ok r => r
  | .error _ => init_registry

def c3w_parent : DeploymentRecord :=
  match tlookup c3w_reg1.deployments 0 with
  | some d => d
  | none => sample_record 0

theorem C3_witness :
    moveOk (request_rollback_deployment c3w_reg1 0 1 0 20) = true ∧
    (0 : Nat) < c3w_reg1.min_payment_usdc := by
  have hreach : DReachable c3w_reg1 :=
    DReachable.step DReachable.init
      (DStep.request (show request_deployment init_registry 5000000 1 "repo" "main" "c"
        "b" "d" 0 "e" 10 = .ok c3w_reg1 from rfl))
  have h := C3_no_rollback_payment_floor (dreachable_inv hreach)
    (show tlookup c3w_reg1.deployments 0 = some c3w_parent from rfl)
    (show c3w_parent.user = 1 from rfl) 0 20
  exact ⟨h.1, by decide⟩

def c3c_roll : Except MoveAbort DeploymentRegistry :=
  match request_deployment init_registry 5000000 1 "repo" "main" "c" "b" "d" 0 "e" 10 with
  | .error e => .error e
  | .ok r1 => request_rollback_deployment r1 0 1 0 20

/-- C3 counterexample: after one regular deployment, a rollback with payment
`0` — far below `min_payment_usdc = 5000000` — succeeds and stores a new
deployment record, instead of failing with `InsufficientPayment`. -/
theorem C3_zero_payment_rollback_succeeds :
    moveOk c3c_roll = true ∧
    (c3c_roll.toOption.bind (fun r2 => tlookup r2.deployments 1)).isSome = true ∧
    (0 : Nat) < init_registry.min_payment_usdc := by
  decide

/-- C4: for an existing subscription and any payment at least the tier
price, `renew_subscription` succeeds; called before expiry it extends the
end date by 30 days from the old end date, called after expiry it restarts
30 days from `now`; in both cases the usage counters are reset to zero. -/
theorem C4_renew {r : SubscriptionRegistry} {user : Nat} {sub : Subscription}
    (hs : tlookup r.subscriptions user = some sub) {price pay : Nat}
    (hp : vborrow r.tier_prices sub.tier = .ok price)
    (hpay : price ≤ pay) (now : Nat) :
    ∃ r2 sub2, renew_subscription r pay user now = .ok r2 ∧
      tlookup r2.subscriptions user = some sub2 ∧
      (now < sub.end_date → sub2.end_date = sub.end_date + SECONDS_IN_MONTH) ∧
      (sub.end_date < now → sub2.end_date = now + SECONDS_IN_MONTH) ∧
      sub2.deployments_used = 0 ∧ sub2.bandwidth_used = 0 := by
  have hrun : renew_subscription r pay user now = .ok
      { r with
        subscriptions := tmodify r.subscriptions user (fun s =>
          { s with
            end_date :=
              if sub.end_date < now then now + SECONDS_IN_MONTH
              else sub.end_date + SECONDS_IN_MONTH
            deployments_used := 0
            bandwidth_used := 0
            payment_history := s.payment_history ++
              [{ amount := pay, timestamp := now
                 tier := sub.tier, transaction_id := 0 }]
            total_spent := s.total_spent + pay })
        total_revenue := r.total_revenue + pay } := by
    simp only [renew_subscription, hs, hp]
    rw [if_neg (by omega)]
  refine ⟨_, { sub with
      end_date :=
        if sub.end_date < now then now + SECONDS_IN_MONTH
        else sub.end_date + SECONDS_IN_MONTH
      deployments_used := 0
      bandwidth_used := 0
      payment_history := sub.payment_history ++
        [{ amount := pay, timestamp := now, tier := sub.tier, transaction_id := 0 }]
      total_spent := sub.total_spent + pay }, hrun, ?_, ?_, ?_, rfl, rfl⟩
  · dsimp only
    rw [tlookup_tmodify, if_pos rfl, hs]
    rfl
  · intro hlt
    dsimp only
    rw [if_neg (by omega)]
  · intro hlt
    dsimp only
    rw [if_pos hlt]

def c4w_reg : SubscriptionRegistry :=
  match subscribe init_sub_registry 10000000 1 false 1 0 with
  | .ok r => r
  | .error _ => init_sub_registry

def c4w_sub : Subscription :=
  match tlookup c4w_reg.subscriptions 1 with
  | some s => s
  | none =>
    { user := 1, tier := 1, start_date := 0, end_date := 0, deployments_used := 0
      bandwidth_used := 0, auto_renew := false, payment_history := [], total_spent := 0 }

theorem C4_renew_witness :
    moveOk (renew_subscription c4w_reg 10000000 1 5) = true ∧
    moveOk (renew_subscription c4w_reg 10000000 1 9999999999) = true := by
  have h1 := @C4_renew c4w_reg 1 c4w_sub rfl 10000000 10000000 rfl (by decide) 5
  have h2 := @C4_renew c4w_reg 1 c4w_sub rfl 10000000 10000000 rfl (by decide) 9999999999
  obtain ⟨r2, sub2, hrun1, _⟩ := h1
  obtain ⟨r3, sub3, hrun2, _⟩ := h2
  rw [hrun1, hrun2]
  exact ⟨rfl, rfl⟩

/-- C5: upgrading to a strictly higher tier demands exactly the price
difference: a payment of `price[newTier] - price[oldTier]` succeeds (the
tier is updated), and any smaller payment — in particular one unit less —
fails with `InsufficientPayment`. -/
theorem C5_upgrade_price_diff {r : SubscriptionRegistry} {user : Nat} {sub : Subscription}
    (hs : tlookup r.subscriptions user = some sub) {new_tier : Nat}
    (ht : 0 < new_tier ∧ new_tier ≤ 3) (hlt : sub.tier < new_tier)
    {new_price old_price : Nat}
    (hnp : vborrow r.tier_prices new_tier = .ok new_price)
    (hop : vborrow r.tier_prices sub.tier = .ok old_price)
    (hple : old_price ≤ new_price)
    {old_count : Nat}
    (hoc : vborrow r.active_subscriptions sub.tier = .ok old_count)
    (hocpos : 0 < old_count)
    {new_count : Nat}
    (hnc : vborrow (vset r.active_subscriptions sub.tier (old_count - 1)) new_tier =
      .ok new_count) :
    (moveOk (upgrade_tier r (new_price - old_price) new_tier user) = true ∧
     ((upgrade_tier r (new_price - old_price) new_tier user).toOption.bind
       (fun r2 => tlookup r2.subscriptions user)) = some { sub with tier := new_tier }) ∧
    (∀ pay, pay < new_price - old_price →
      upgrade_tier r pay new_tier user = .error (.code E_SUB_INSUFFICIENT_PAYMENT)) := by
  have hcsub : csub new_price old_price = .ok (new_price - old_price) := by
    rw [csub, if_pos hple]
  have hcsub2 : csub old_count 1 = .ok (old_count - 1) := by
    rw [csub, if_pos (show 1 ≤ old_count by omega)]
  constructor
  · have hrun : upgrade_tier r (new_price - old_price) new_tier user = .ok
        { r with
          active_subscriptions := vset (vset r.active_subscriptions sub.tier (old_count - 1))
            new_tier (new_count + 1)
          subscriptions := tmodify r.subscriptions user
            (fun s => { s with tier := new_tier }) } := by
      simp only [upgrade_tier, hs, hnp, hop, hoc, hnc, hcsub, hcsub2]
      rw [if_neg (not_not_intro ht), if_neg (not_not_intro hlt), if_neg (by omega)]
    rw [hrun]
    refine ⟨rfl, ?_⟩
    show tlookup (tmodify r.subscriptions user (fun s => { s with tier := new_tier })) user =
      some { sub with tier := new_tier }
    rw [tlookup_tmodify, if_pos rfl, hs]
    rfl
  · intro pay hpay
    simp only [upgrade_tier, hs, hnp, hop, hcsub]
    rw [if_neg (not_not_intro ht), if_neg (not_not_intro hlt), if_pos hpay]

def c5w_reg : SubscriptionRegistry :=
  match subscribe init_sub_registry 10000000 1 false 1 0 with
  | .ok r => r
  | .error _ => init_sub_registry

def c5w_sub : Subscription :=
  match tlookup c5w_reg.subscriptions 1 with
  | some s => s
  | none =>
    { user := 1, tier := 1, start_date := 0, end_date := 0, deployments_used := 0
      bandwidth_used := 0, auto_renew := false, payment_history := [], total_spent := 0 }

theorem C5_upgrade_witness :
    moveOk (upgrade_tier c5w_reg 40000000 2 1) = true ∧
    upgrade_tier c5w_reg 39999999 2 1 = .error (.code E_SUB_INSUFFICIENT_PAYMENT) := by
  have h := @C5_upgrade_price_diff c5w_reg 1 c5w_sub rfl 2 (by decide) (by decide)
    50000000 10000000 rfl rfl (by decide) 1 rfl (by decide) 0 rfl
  exact ⟨h.1.1, h.2 39999999 (by decide)⟩

/-- C6 (amended): in every reachable subscription-registry state,
`total_spent` equals the sum of `amount` over `payment_history` — all
mutating operations preserve this equality.  However, `upgrade_tier` takes
its payment without recording it anywhere (neither `total_spent` nor
`payment_history`), so `total_spent` does NOT equal the sum of all payments
ever made by the user once an upgrade has happened. -/
theorem C6_total_spent_history {r : SubscriptionRegistry} (h : SubReachable r) :
    ∀ u s, tlookup r.subscriptions u = some s →
      s.total_spent = sumAmounts s.payment_history :=
  subreachable_inv h

def c6w_reg : SubscriptionRegistry :=
  match subscribe init_sub_registry 10000000 1 false 1 0 with
  | .ok r => r
  | .error _ => init_sub_registry

def c6w_sub : Subscription :=
  match tlookup c6w_reg.subscriptions 1 with
  | some s => s
  | none =>
    { user := 1, tier := 1, start_date := 0, end_date := 0, deployments_used := 0
      bandwidth_used := 0, auto_renew := false, payment_history := [], total_spent := 0 }

theorem C6_witness :
    c6w_sub.total_spent = sumAmounts c6w_sub.payment_history :=
  C6_total_spent_history
    (SubReachable.step SubReachable.init
      (SubStep.subscribeStep (show subscribe init_sub_registry 10000000 1 false 1 0 =
        .ok c6w_reg from rfl)))
    1 c6w_sub rfl

def c6c_reg : Except MoveAbort SubscriptionRegistry :=
  match subscribe init_sub_registry 10000000 1 false 1 0 with
  | .error e => .error e
  | .ok r1 => upgrade_tier r1 40000000 2 1

/-- C6 counterexample: user 1 subscribes to Starter paying 10000000, then
upgrades to Growth paying a further 40000000; both operations succeed, yet
`total_spent` still reads 10000000, not the 50000000 actually paid — the
upgrade payment is recorded nowhere. -/
theorem C6_upgrade_payment_unrecorded :
    moveOk c6c_reg = true ∧
    ((c6c_reg.toOption.bind (fun r => tlookup r.subscriptions 1)).map
      Subscription.total_spent) = some 10000000 ∧
    (10000000 : Nat) ≠ 10000000 + 40000000 := by
  decide

/-- C7: `total_usdc_processed` never decreases under any payment-processor
operation, and in every reachable state the source-token (USDC) buffer
equals `total_usdc_processed` minus the total USDC transferred out. -/
theorem C7_processor_invariant :
    (∀ s s2, PStep s s2 → s.1.total_usdc_processed ≤ s2.1.total_usdc_processed) ∧
    (∀ s, PReachable s →
      s.1.usdc_buffer = s.1.total_usdc_processed - s.2 ∧
      s.2 ≤ s.1.total_usdc_processed) := by
  refine ⟨fun s s2 h => pstep_mono h, fun s h => ?_⟩
  have := preachable_inv h
  omega

def c7w_pair : PaymentProcessor × PaymentProcessed :=
  match process_payment init_processor 7 1 "dep" 2 with
  | .ok pr => pr
  | .error _ => (init_processor, { user := 0, usdc_amount := 0, deployment_id := "", timestamp := 0 })

theorem C7_witness :
    c7w_pair.1.usdc_buffer = c7w_pair.1.total_usdc_processed - 0 :=
  (C7_processor_invariant.2 (c7w_pair.1, 0)
    (PReachable.step PReachable.init
      (PStep.process (show process_payment init_processor 7 1 "dep" 2 =
        .ok (c7w_pair.1, c7w_pair.2) from rfl)))).1

/-- C8 (amended): `process_payment` is total — it never aborts for any
amount, zero included (the module has no `InvalidAmount` error at all); it
always adds the amount to the USDC buffer, bumps `total_usdc_processed`,
and emits a `PaymentProcessed` event for the amount. -/
theorem C8_process_payment_total (p : PaymentProcessor) (a u : Nat) (d : String)
    (now : Nat) :
    process_payment p a u d now = .ok
      ({ p with
         usdc_buffer := p.usdc_buffer + a
         total_usdc_processed := p.total_usdc_processed + a },
       { user := u, usdc_amount := a, deployment_id := d, timestamp := now }) := rfl

/-- C8 counterexample: a zero-amount payment does not fail — it succeeds
(and still emits an event), refuting "fails with InvalidAmount when the
amount is zero". -/
theorem C8_zero_amount_accepted :
    moveOk (process_payment init_processor 0 1 "dep" 5) = true ∧
    (process_payment init_processor 0 1 "dep" 5).toOption.map
      (fun pr => pr.1.total_usdc_processed) = some 0 := by
  decide

/-- C9: whenever the fetched balance is below
`calculateDeploymentCost estimatedWal`, the orchestrator's checking phase
ends in the `failed` state with the message
`Insufficient USDC. Required: <amount>` and submits no transaction; and the
cost of `estimatedWal = 0` is exactly the 5-USDC minimum. -/
theorem C9_insufficient_balance {balance estimatedWal : Nat}
    (h : balance < calculateDeploymentCost estimatedWal) :
    deploy_check (some balance) estimatedWal =
      { deploymentStatus := .failed
        error := some ("Insufficient USDC. Required: " ++
          formatUSDC (calculateDeploymentCost estimatedWal))
        submitted := false } ∧
    calculateDeploymentCost 0 = MIN_PAYMENT_USDC := by
  refine ⟨?_, rfl⟩
  simp [deploy_check, h]

theorem C9_witness :
    deploy_check (some 3000000) 0 =
      { deploymentStatus := .failed
        error := some "Insufficient USDC. Required: $5.00"
        submitted := false } := by
  rw [(@C9_insufficient_balance 3000000 0 (by decide)).1]
  decide

/-- C10: in every reachable deployment-registry state, every id in a user's
`user_deployments` list is a key of `deployments` and the stored record's
`user` equals that user, with ids in creation order (strictly increasing,
as ids are handed out in creation order), and conversely every record
appears in its owner's list; `get_user_deployments` of an address with no
deployments returns `[]`; and `request_rollback_deployment`'s unguarded
access to the caller's list cannot fail once the parent-ownership check
passes. -/
theorem C10_registry_consistency {r : DeploymentRegistry} (h : DReachable r) :
    RegInv r ∧
    (∀ u, tlookup r.user_deployments u = none → get_user_deployments r u = []) ∧
    (∀ pay sender pid now parent,
      tlookup r.deployments pid = some parent → parent.user = sender →
      moveOk (request_rollback_deployment r pay sender pid now) = true) := by
  have hinv := dreachable_inv h
  refine ⟨hinv, ?_, ?_⟩
  · intro u hu
    rw [get_user_deployments, hu]
  · intro pay sender pid now parent hp hup
    rw [rollback_succeeds hinv hp hup pay now]
    rfl

theorem C10_witness : get_user_deployments init_registry 7 = [] :=
  (C10_registry_consistency DReachable.init).2.1 7 rfl
